import Mathlib

/-!
Verification of the core subsystems of the csi-proxy repository:
the Windows service lifecycle controller and dependency traversal
(`pkg/os/system/api.go`), the multi-endpoint server orchestrator
(`pkg/server/server.go`), the iSCSI instance-correlation helpers
(`pkg/cim`, partially provided), and the SMB host API
(`pkg/smb/hostapi/hostapi.go`).

Go functions are shallowly embedded as Lean functions.  Fallible Go calls
(`(T, error)` returns) become `Except String` values; the unbounded Go
loops are step-indexed with an explicit fuel argument, `none` meaning the
loop has not finished within the given number of iterations; the
ticker/timeout race of `WaitUntilServiceState` is resolved by an explicit
schedule parameter giving the number of ticker firings delivered before
the absolute timeout fires.
-/

/-! ## Service dependency traversal, `pkg/os/system/api.go` -/

/-- The `serviceStateRunning` constant of `pkg/os/system/api.go:48`. -/
def serviceStateRunning : String := "Running"

/-- The `serviceStateStopped` constant of `pkg/os/system/api.go:49`. -/
def serviceStateStopped : String := "Stopped"

/-- Environment for the shallow embedding of `ServiceManagerImpl`
(`pkg/os/system/api.go`).  A `ServiceInterface` handle is identified by
its service name; each field models one method of `ServiceInterface`
(respectively of the `ServiceFactory`), with `Except String` standing for
the Go `error` return.  Dependent services are returned by name. -/
structure ServiceEnv where
  getService : String → Except String String
  getPropertyName : String → Except String String
  getPropertyState : String → Except String String
  getDependents : String → Except String (List String)

/-- The `for i < len(servicesToCheck)` loop of
`ServiceManagerImpl.GetDependentsForService` (`pkg/os/system/api.go:342-370`),
step-indexed by `fuel` (`none` = the loop did not finish within `fuel`
iterations).  The queue argument is the suffix of `servicesToCheck` that
the index `i` has not passed yet; `servicesByName` is the map the Go code
fills in (`servicesByName[serviceName] = serviceName`) but never reads.
On an error the Go function returns the partial `serviceNames` list
together with the error, modelled by the `Option String` component. -/
def getDependentsLoop (env : ServiceEnv) :
    Nat → List String → List String → List (String × String) →
    Option (List String × Option String)
  | 0, _, _, _ => none
  | _ + 1, [], serviceNames, _ => some (serviceNames, none)
  | fuel + 1, service :: rest, serviceNames, servicesByName =>
    match env.getPropertyName service with
    | .error e => some (serviceNames, some e)
    | .ok serviceName =>
      match env.getPropertyState service with
      | .error e => some (serviceNames, some e)
      | .ok currentState =>
        if currentState ≠ serviceStateRunning then
          getDependentsLoop env fuel rest serviceNames servicesByName
        else
          match env.getDependents service with
          | .error e => some (serviceName :: serviceNames, some e)
          | .ok dependents =>
            getDependentsLoop env fuel (rest ++ dependents)
              (serviceName :: serviceNames)
              ((serviceName, serviceName) :: servicesByName)

/-- `ServiceManagerImpl.GetDependentsForService` (`pkg/os/system/api.go:330-373`):
resolve the root service through the factory, then run the queue loop
seeded with it.  `none` = the loop did not return within `fuel` iterations. -/
def GetDependentsForService (env : ServiceEnv) (fuel : Nat) (name : String) :
    Option (List String × Option String) :=
  match env.getService name with
  | .error e => some ([], some e)
  | .ok service => getDependentsLoop env fuel [service] [] []

/-- Builds a `ServiceEnv` in which every property read succeeds: services
are handles equal to their names, with the given state and dependents maps. -/
def mkServiceEnv (states : String → String) (deps : String → List String) :
    ServiceEnv where
  getService := fun n => .ok n
  getPropertyName := fun n => .ok n
  getPropertyState := fun n => .ok (states n)
  getDependents := fun n => .ok (deps n)

/-- A diamond of running services: A depends on nothing, B and C are
dependents of A, and D is a dependent of both B and C. -/
def diamondEnv : ServiceEnv :=
  mkServiceEnv (fun _ => serviceStateRunning)
    (fun n =>
      if n = "A" then ["B", "C"]
      else if n = "B" then ["D"]
      else if n = "C" then ["D"]
      else [])

/-- A two-cycle of running services: A and B are dependents of each other. -/
def cycleEnv : ServiceEnv :=
  mkServiceEnv (fun _ => serviceStateRunning)
    (fun n =>
      if n = "A" then ["B"]
      else if n = "B" then ["A"]
      else [])

/-- The dependency graph exactly as the claim words it: root A with
dependents B and C, B with dependent D; A, B and D running, C stopped. -/
def c4LiteralEnv : ServiceEnv :=
  mkServiceEnv
    (fun n => if n = "C" then serviceStateStopped else serviceStateRunning)
    (fun n =>
      if n = "A" then ["B", "C"]
      else if n = "B" then ["D"]
      else [])

/-- The amended graph: root A with dependents B and C, and D a dependent
of C only (so that D is indeed reachable only through the stopped C);
A, B and D running, C stopped. -/
def c4AmendedEnv : ServiceEnv :=
  mkServiceEnv
    (fun n => if n = "C" then serviceStateStopped else serviceStateRunning)
    (fun n =>
      if n = "A" then ["B", "C"]
      else if n = "C" then ["D"]
      else [])

/-! ## `WaitUntilServiceState`, `pkg/os/system/api.go:294-328` -/

/-- One result of the `stateCheck` callback: `(done, state, service, err)`
in the Go code; the `service` handle is irrelevant to the properties
proved here and is omitted. -/
structure CheckResult where
  done : Bool
  state : String
  err : Option String

/-- The distinct error outcomes of `WaitUntilServiceState`: the initial
`stateCheck` error returned unwrapped (`api.go:296-298`), the
`stateTransition` error (`api.go:304-306`), a mid-poll `stateCheck` error
wrapped as `check failed: %w` (`api.go:317-319`), and the
`wmierrors.Timedout` sentinel (`api.go:325`). -/
inductive WaitError where
  | checkError (e : String)
  | transitionError (e : String)
  | wrappedCheckError (e : String)
  | timedout
deriving DecidableEq

/-- Result of `WaitUntilServiceState` together with the number of times
`stateTransition` was invoked during the call. -/
structure WaitOutcome where
  state : String
  error : Option WaitError
  transitionCalls : Nat
deriving DecidableEq

/-- The `select` loop of `WaitUntilServiceState` (`api.go:313-327`).
`stateCheck k` is the result of the k-th invocation of the `stateCheck`
callback (invocation 0 being the one before the loop); `ticksLeft` is the
number of ticker firings still delivered before the absolute timeout
fires.  When the timeout fires (`ticksLeft = 0`) the Go code performs one
final `stateCheck` and returns its state with `wmierrors.Timedout`,
ignoring that check's `done` and `err` values. -/
def pollLoop (stateCheck : Nat → CheckResult) :
    Nat → Nat → String × Option WaitError
  | k, 0 => ((stateCheck k).state, some .timedout)
  | k, ticksLeft + 1 =>
    let r := stateCheck k
    match r.err with
    | some e => (r.state, some (.wrappedCheckError e))
    | none =>
      if r.done then (r.state, none)
      else pollLoop stateCheck (k + 1) ticksLeft

/-- `ServiceManagerImpl.WaitUntilServiceState` (`pkg/os/system/api.go:294-328`).
`stateTransition` is modelled by its result (the Go callback receives the
service handle of the initial check, which does not affect the properties
proved here); `ticks` is the number of ticker firings delivered before
the timeout fires, resolving the timer race explicitly. -/
def WaitUntilServiceState (stateTransition : Except String Unit)
    (stateCheck : Nat → CheckResult) (ticks : Nat) : WaitOutcome :=
  let r := stateCheck 0
  match r.err with
  | some e => ⟨r.state, some (.checkError e), 0⟩
  | none =>
    if r.done then ⟨r.state, none, 0⟩
    else
      match stateTransition with
      | .error e => ⟨r.state, some (.transitionError e), 1⟩
      | .ok _ =>
        let p := pollLoop stateCheck 1 ticks
        ⟨p.1, p.2, 1⟩

/-- A `stateCheck` that always reports done with state `Running`. -/
def doneCheck : Nat → CheckResult := fun _ => ⟨true, serviceStateRunning, none⟩

/-- A `stateCheck` that never reports done and never fails. -/
def pendingCheck : Nat → CheckResult := fun _ => ⟨false, "Stop Pending", none⟩

/-- A `stateCheck` that fails on its second poll invocation (index 2) and
otherwise reports a pending, not-done state. -/
def midErrCheck : Nat → CheckResult := fun k =>
  if k = 2 then ⟨false, "Paused", some "probe failed"⟩
  else ⟨false, "Stop Pending", none⟩

/-! ## Server orchestrator, `pkg/server/server.go` -/

/-- The listener-creation pass of `Server.createListeners`
(`pkg/server/server.go:109-118`): one `winio.ListenPipe` attempt per
versioned API, in order.  `listen i` is the outcome of the attempt for
endpoint `i`; a listener is identified by its endpoint index.  Returns
the listener slice (`none` where the attempt failed, as the Go slice
keeps `nil` there) and the accumulated error list. -/
def createListenersAux (listen : Nat → Except String Unit) :
    List Nat → List (Option Nat) × List String
  | [] => ([], [])
  | i :: rest =>
    let r := createListenersAux listen rest
    match listen i with
    | .ok _ => (some i :: r.1, r.2)
    | .error e => (none :: r.1, e :: r.2)

/-- `Server.createListeners` (`pkg/server/server.go:106-130`): run the
creation pass and, if any error occurred, close (best effort) every
listener that was successfully created.  The third component is the list
of listener indices closed during that cleanup. -/
def createListeners (listen : Nat → Except String Unit) (n : Nat) :
    List (Option Nat) × List String × List Nat :=
  let r := createListenersAux listen (List.range n)
  if r.2.isEmpty then (r.1, r.2, [])
  else (r.1, r.2, r.1.filterMap id)

/-- The `Server` struct of `pkg/server/server.go:20-27`, restricted to the
fields the lifecycle logic reads: the number of versioned APIs, the
`started` flag, and the `grpcServers` slice (a gRPC server identified by
its endpoint index, `none` for a `nil` slot). -/
structure Server where
  numAPIs : Nat
  started : Bool
  grpcServers : List (Option Nat)
deriving DecidableEq

/-- `NewServer` (`pkg/server/server.go:30-49`): not started, no gRPC
servers yet. -/
def NewServer (n : Nat) : Server := ⟨n, false, []⟩

/-- Observable outcome of `Server.startListening`: the server state after
the call, the returned error list, the endpoint indices for which a serve
goroutine was launched (by `createAndStartGRPCServers`,
`pkg/server/server.go:167-174`), and the listener indices closed by the
`createListeners` cleanup. -/
structure StartOutcome where
  server : Server
  errors : List String
  serveLoops : List Nat
  closedListeners : List Nat
deriving DecidableEq

/-- `Server.startListening` (`pkg/server/server.go:70-85`): under the
mutex, fail with `server already started` if the `started` flag is set;
otherwise set the flag, create the listeners, and on any creation error
return the error list without starting any gRPC server (note the flag
stays set); on success `createAndStartGRPCServers` allocates one gRPC
server and launches one serve goroutine per versioned API. -/
def startListening (s : Server) (listen : Nat → Except String Unit) :
    StartOutcome :=
  if s.started then ⟨s, ["server already started"], [], []⟩
  else
    let started := { s with started := true }
    let r := createListeners listen s.numAPIs
    if r.2.1.isEmpty then
      ⟨{ started with grpcServers := (List.range s.numAPIs).map some },
        [], List.range s.numAPIs, r.2.2⟩
    else
      ⟨started, r.2.1, [], r.2.2⟩

/-- `Server.Stop` (`pkg/server/server.go:208-223`): under the mutex, fail
with `server not started yet` if the server was never started; otherwise
stop every non-nil gRPC server (the third component lists the indices
stopped) and return no error. -/
def Stop (s : Server) : Server × Option String × List Nat :=
  if s.started then (s, none, s.grpcServers.filterMap id)
  else (s, some "server not started yet", [])

/-- A transport in which endpoint 0 fails to bind and every other
endpoint binds successfully. -/
def listenFail0 : Nat → Except String Unit := fun i =>
  if i = 0 then .error "bind failed" else .ok ()

/-- A transport in which every endpoint binds successfully. -/
def listenOk : Nat → Except String Unit := fun _ => .ok ()

/-! ## Correlation engine, `pkg/cim` (partially provided)

The callers `ListISCSITargetsByTargetPortalWithFilters`,
`QueryISCSISessionByTarget` and `ListDisksByTarget` are provided
(`src/unnamed/part_001`), but the bodies of `FindInstancesByMapping` and
`ListWMIInstanceMappings` are not among the provided source files: they
are modelled from the spec below.  The mapping-table type
`map[string]string` is taken from the provided declarations
(`ListISCSITargetToISCSITargetPortalMapping` and friends,
`src/unnamed/part_001:104-122`). -/

/-- Modelled from the spec: building the reference-Key set of `correlate`
(§4.1: "build a set of reference Keys (applying `referenceIndexer` to
each reference record, deduplicated)"), with the total-or-fail indexer
contract (§4.1: every record must yield a Key or the operation fails with
a `KeyExtractionError`).  Keys are collected in input order; membership
tests below make the list behave as a set, so deduplication is not
modelled separately. -/
def extractKeys {α : Type} (indexer : α → Except String String) :
    List α → Except String (List String)
  | [] => .ok []
  | r :: rest =>
    match indexer r with
    | .error e => .error e
    | .ok k =>
      match extractKeys indexer rest with
      | .error e => .error e
      | .ok ks => .ok (k :: ks)

/-- Modelled from the spec: the per-source-record pass of `correlate`
(§4.1: "For each source record, extract its Key via `sourceIndexer`, look
it up as the source side of `mappingTable` to obtain zero or more
target-side Keys, and keep the source record iff at least one resulting
target Key is a member of the reference-Key set"; §4.1 tie-break: a Key
with no association row is excluded, not an error).  The mapping table is
single-valued because its Go type is `map[string]string`. -/
def findSourcesAux {α : Type} (sourceIndexer : α → Except String String)
    (table : String → Option String) (refKeys : List String) :
    List α → Except String (List α)
  | [] => .ok []
  | s :: rest =>
    match sourceIndexer s with
    | .error e => .error e
    | .ok k =>
      match findSourcesAux sourceIndexer table refKeys rest with
      | .error e => .error e
      | .ok tail =>
        match table k with
        | none => .ok tail
        | some tk => .ok (if tk ∈ refKeys then s :: tail else tail)

/-- Modelled from the spec: `FindInstancesByMapping`
(`correlate(sourceRecords, sourceIndexer, referenceRecords,
referenceIndexer, mappingTable) → filteredSourceRecords`, §4.1), whose
body is not among the provided source files.  Builds the reference-Key
set first, then filters the source records through the mapping table. -/
def FindInstancesByMapping {α β : Type} (source : List α)
    (sourceIndexer : α → Except String String) (refs : List β)
    (refIndexer : β → Except String String)
    (table : String → Option String) : Except String (List α) :=
  match extractKeys refIndexer refs with
  | .error e => .error e
  | .ok refKeys => findSourcesAux sourceIndexer table refKeys source

/-- Insertion into a Go `map[string]string`, modelled on an association
list with unique keys: inserting an existing key overwrites its value,
otherwise the pair is appended. -/
def goMapInsert (m : List (String × String)) (k v : String) :
    List (String × String) :=
  if m.any (fun p => p.1 = k) then
    m.map (fun p => if p.1 = k then (k, v) else p)
  else m ++ [(k, v)]

/-- Lookup in a Go `map[string]string` modelled as an association list. -/
def goMapLookup (m : List (String × String)) (k : String) : Option String :=
  (m.find? (fun p => p.1 = k)).map (fun p => p.2)

/-- Modelled from the spec: the row pass of `ListWMIInstanceMappings`
(`buildMapping`, §4.1: "lists every record in the named association
collection once; for each, applies both Indexers and inserts the pair"),
threading the table being built.  An indexer failure aborts the build
(no partial table is returned, §4.1). -/
def ListWMIInstanceMappingsAux {γ : Type}
    (sourceIndexer targetIndexer : γ → Except String String)
    (table : List (String × String)) :
    List γ → Except String (List (String × String))
  | [] => .ok table
  | row :: rest =>
    match sourceIndexer row with
    | .error e => .error e
    | .ok k =>
      match targetIndexer row with
      | .error e => .error e
      | .ok v =>
        ListWMIInstanceMappingsAux sourceIndexer targetIndexer
          (goMapInsert table k v) rest

/-- Modelled from the spec: `ListWMIInstanceMappings`, whose body is not
among the provided source files.  Enumerates the association rows once,
inserting one (source-key, target-key) pair per row into a
`map[string]string` (the return type declared by its provided callers,
`src/unnamed/part_001:104-122`). -/
def ListWMIInstanceMappings {γ : Type} (rows : List γ)
    (sourceIndexer targetIndexer : γ → Except String String) :
    Except String (List (String × String)) :=
  ListWMIInstanceMappingsAux sourceIndexer targetIndexer [] rows

/-- Indexer extracting the first component of a pair record, total. -/
def fstIndexer : String × String → Except String String := fun p => .ok p.1

/-- Indexer extracting the second component of a pair record, total. -/
def sndIndexer : String × String → Except String String := fun p => .ok p.2

/-- Identity indexer on string records, total. -/
def idIndexer : String → Except String String := fun s => .ok s

/-! ## Unchecked first-element indexing, `src/unnamed/part_001:35-51`
and `pkg/smb/hostapi/hostapi.go:91-104` -/

/-- `QueryISCSITargetPortal` (`src/unnamed/part_001:35-51`), parameterised
by the outcome of the underlying `QueryInstances` call and by the
`storage.NewMSFT_iSCSITargetPortalEx1` wrapper.  The Go code indexes
`instances[0]` with no length check right after the error check, so an
empty instance list with a nil error makes the Go program panic: `none`
models that undefined result. -/
def QueryISCSITargetPortal {α β : Type} (queryInstances : Except String (List α))
    (wrap : α → Except String β) : Option (Except String β) :=
  match queryInstances with
  | .error e => some (.error e)
  | .ok [] => none
  | .ok (first :: _) =>
    some (match wrap first with
      | .error e => .error ("failed to query iSCSI target portal. error: " ++ e)
      | .ok portal => .ok portal)

/-- `smbAPI.RemoveSMBGlobalMapping` (`pkg/smb/hostapi/hostapi.go:91-104`),
parameterised by the outcome of the underlying `cim.QueryInstances` call
and by the `InvokeMethod("Remove", true)` call on the first instance.
The Go code indexes `instances[0]` with no length check, so an empty
instance list with a nil error makes the Go program panic: `none` models
that undefined result. -/
def RemoveSMBGlobalMapping {α : Type} (queryInstances : Except String (List α))
    (invokeRemove : α → Except String Unit) : Option (Except String Unit) :=
  match queryInstances with
  | .error e => some (.error e)
  | .ok [] => none
  | .ok (first :: _) =>
    some (match invokeRemove first with
      | .error e => .error ("error remove smb mapping. err: " ++ e)
      | .ok _ => .ok ())

/-! ## Theorems -/

/-- On `cycleEnv` the traversal loop never finishes: every dequeued
service is running with a running dependent, so the queue never empties,
whatever the fuel. -/
theorem cycleEnv_loop_diverges :
    ∀ (fuel : Nat) (queue names : List String)
      (visited : List (String × String)),
      queue ≠ [] → (∀ s ∈ queue, s = "A" ∨ s = "B") →
      getDependentsLoop cycleEnv fuel queue names visited = none := by
  intro fuel
  induction fuel with
  | zero => intros; rfl
  | succ fuel ih =>
    intro queue names visited hne hmem
    match queue with
    | [] => exact absurd rfl hne
    | s :: rest =>
      have hs := hmem s (List.mem_cons_self s rest)
      have hrest : ∀ x ∈ rest, x = "A" ∨ x = "B" :=
        fun x hx => hmem x (List.mem_cons_of_mem s hx)
      rcases hs with rfl | rfl
      · show getDependentsLoop cycleEnv (fuel + 1) ("A" :: rest) names visited = none
        simp only [getDependentsLoop, cycleEnv, mkServiceEnv, serviceStateRunning]
        norm_num
        exact ih (rest ++ ["B"]) ("A" :: names) (("A", "A") :: visited)
          (by simp) (by
            intro x hx
            rcases List.mem_append.mp hx with hx | hx
            · exact hrest x hx
            · right; simpa using hx)
      · show getDependentsLoop cycleEnv (fuel + 1) ("B" :: rest) names visited = none
        simp only [getDependentsLoop, cycleEnv, mkServiceEnv, serviceStateRunning]
        norm_num
        exact ih (rest ++ ["A"]) ("B" :: names) (("B", "B") :: visited)
          (by simp) (by
            intro x hx
            rcases List.mem_append.mp hx with hx | hx
            · exact hrest x hx
            · left; simpa using hx)

/-- C1: the claim states that every service name appears at most once in
the list returned by `GetDependentsForService`.  On the diamond of
running services (A with dependents B and C, both with dependent D) the
code records D twice: the `servicesByName` map is filled in but never
consulted, so the traversal re-processes a service reachable through two
paths. -/
theorem getDependentsForService_diamond_duplicate :
    GetDependentsForService diamondEnv 10 "A" =
      some (["D", "D", "C", "B", "A"], none) ∧
    List.count "D" ["D", "D", "C", "B", "A"] = 2 := ⟨rfl, rfl⟩

/-- C2: the claim states that `GetDependentsForService` terminates on
every finite dependency graph, including cyclic ones.  On the two-cycle
of running services A ⇄ B the loop re-enqueues forever (the visited map
is never read), so no amount of fuel makes the step-indexed loop
return. -/
theorem getDependentsForService_cycle_diverges :
    ∀ fuel : Nat, GetDependentsForService cycleEnv fuel "A" = none := by
  intro fuel
  show getDependentsLoop cycleEnv fuel ["A"] [] [] = none
  exact cycleEnv_loop_diverges fuel ["A"] [] [] (by simp)
    (by intro s hs; left; simpa using hs)

/-- C4 counterexample: with the dependency graph exactly as the claim
words it (root A with dependents B and C, B with dependent D; A, B, D
running, C stopped), the code returns `["D", "B", "A"]`, not the claimed
`["B", "A"]`: D is enqueued through the running B, so it is recorded. -/
theorem getDependentsForService_c4_literal :
    GetDependentsForService c4LiteralEnv 10 "A" =
      some (["D", "B", "A"], none) ∧
    (["D", "B", "A"] : List String) ≠ ["B", "A"] := ⟨rfl, by decide⟩

/-- C4 (amended): a dequeued service whose observed state is not
`Running` is skipped — it is not recorded and its dependents are not
enqueued — and for root A with dependents B and C, C with dependent D
(D reachable only through C), states A, B, D running and C stopped,
the result is exactly `["B", "A"]`, omitting C and D. -/
theorem getDependentsForService_skips_inactive :
    (∀ (env : ServiceEnv) (fuel : Nat) (s : String) (rest names : List String)
      (visited : List (String × String)) (n st : String),
      env.getPropertyName s = .ok n → env.getPropertyState s = .ok st →
      st ≠ serviceStateRunning →
      getDependentsLoop env (fuel + 1) (s :: rest) names visited =
        getDependentsLoop env fuel rest names visited) ∧
    GetDependentsForService c4AmendedEnv 10 "A" = some (["B", "A"], none) := by
  constructor
  · intro env fuel s rest names visited n st h1 h2 h3
    simp only [getDependentsLoop, h1, h2, if_pos h3]
  · rfl

/-- Witness for the amended C4: the skip step applied to the stopped
service C of the amended graph. -/
theorem getDependentsForService_skips_inactive_witness :
    getDependentsLoop c4AmendedEnv 3 ["C"] ["B", "A"] [("B", "B"), ("A", "A")] =
      getDependentsLoop c4AmendedEnv 2 [] ["B", "A"] [("B", "B"), ("A", "A")] :=
  getDependentsForService_skips_inactive.1 c4AmendedEnv 2 "C" [] ["B", "A"]
    [("B", "B"), ("A", "A")] "C" serviceStateStopped rfl rfl (by decide)

/-- C5: `stateTransition` is invoked at most once per
`WaitUntilServiceState` call, and never when the initial `stateCheck`
reports done or returns an error. -/
theorem waitUntilServiceState_transition_at_most_once :
    ∀ (tr : Except String Unit) (c : Nat → CheckResult) (ticks : Nat),
      (WaitUntilServiceState tr c ticks).transitionCalls ≤ 1 ∧
      ((c 0).err ≠ none ∨ (c 0).done = true →
        (WaitUntilServiceState tr c ticks).transitionCalls = 0) := by
  intro tr c ticks
  unfold WaitUntilServiceState
  cases h : (c 0).err with
  | some e => simp [h]
  | none =>
    cases hd : (c 0).done with
    | true => simp [h, hd]
    | false =>
      cases tr with
      | error e => simp [h, hd]
      | ok _ => simp [h, hd]

/-- Witness for C5: with a `stateCheck` that reports done immediately the
transition is never invoked. -/
theorem waitUntilServiceState_transition_at_most_once_witness :
    (WaitUntilServiceState (.ok ()) doneCheck 5).transitionCalls = 0 :=
  (waitUntilServiceState_transition_at_most_once (.ok ()) doneCheck 5).2
    (Or.inr rfl)

/-- C10: if the underlying instance query returns an empty list with a
nil error, `QueryISCSITargetPortal` and `RemoveSMBGlobalMapping` index
the first element of the empty list without a bounds check, so the
operation has no defined result (modelled as `none`, the Go panic)
instead of an error return. -/
theorem emptyInstances_panic :
    ∀ {α β : Type} (wrap : α → Except String β)
      (invokeRemove : α → Except String Unit),
      QueryISCSITargetPortal (.ok ([] : List α)) wrap = none ∧
      RemoveSMBGlobalMapping (.ok ([] : List α)) invokeRemove = none :=
  fun _ _ => ⟨rfl, rfl⟩

/-- If every delivered tick observes a not-done, error-free check, the
poll loop runs the timeout branch: one final check whose state is
returned with the `Timedout` sentinel. -/
theorem pollLoop_timeout (c : Nat → CheckResult) :
    ∀ (t k : Nat),
      (∀ i, k ≤ i → i < k + t → (c i).err = none ∧ (c i).done = false) →
      pollLoop c k t = ((c (k + t)).state, some .timedout) := by
  intro t
  induction t with
  | zero => intro k _; rfl
  | succ t ih =>
    intro k h
    have hk := h k (Nat.le_refl k) (by omega)
    simp only [pollLoop, hk.1, hk.2]
    norm_num
    have he : k + 1 + t = k + (t + 1) := by omega
    rw [ih (k + 1) (fun i h1 h2 => h i (by omega) (by omega)), he]

/-- If the j-th check is the first polled check to fail, the poll loop
returns that check's state with the wrapped check error. -/
theorem pollLoop_error (c : Nat → CheckResult) :
    ∀ (t k j : Nat) (e : String), k ≤ j → j < k + t →
      (∀ i, k ≤ i → i < j → (c i).err = none ∧ (c i).done = false) →
      (c j).err = some e →
      pollLoop c k t = ((c j).state, some (.wrappedCheckError e)) := by
  intro t
  induction t with
  | zero => intro k j e h1 h2 _ _; omega
  | succ t ih =>
    intro k j e h1 h2 h3 h4
    rcases Nat.eq_or_lt_of_le h1 with rfl | hlt
    · simp only [pollLoop, h4]
    · have hk := h3 k (Nat.le_refl k) hlt
      simp only [pollLoop, hk.1, hk.2]
      norm_num
      exact ih (k + 1) j e (by omega) (by omega)
        (fun i hi1 hi2 => h3 i (by omega) hi2) h4

/-- C6: if the timeout fires before any poll tick reports done, one final
`stateCheck` is performed and its state is returned with the `Timedout`
error; a mid-poll check error instead returns immediately with the
wrapped check error; and the `Timedout` kind is distinct from both check
error kinds. -/
theorem waitUntilServiceState_timeout_behaviour :
    ∀ (tr : Except String Unit) (c : Nat → CheckResult) (ticks : Nat),
      ((c 0).err = none → (c 0).done = false → tr = .ok () →
        (∀ i, 1 ≤ i → i ≤ ticks → (c i).err = none ∧ (c i).done = false) →
        WaitUntilServiceState tr c ticks =
          ⟨(c (ticks + 1)).state, some .timedout, 1⟩) ∧
      (∀ (j : Nat) (e : String),
        (c 0).err = none → (c 0).done = false → tr = .ok () →
        1 ≤ j → j ≤ ticks →
        (∀ i, 1 ≤ i → i < j → (c i).err = none ∧ (c i).done = false) →
        (c j).err = some e →
        WaitUntilServiceState tr c ticks =
          ⟨(c j).state, some (.wrappedCheckError e), 1⟩) ∧
      (∀ e : String, WaitError.timedout ≠ WaitError.wrappedCheckError e ∧
        WaitError.timedout ≠ WaitError.checkError e) := by
  intro tr c ticks
  refine ⟨?_, ?_, ?_⟩
  · intro h0 hd0 htr hall
    subst htr
    simp only [WaitUntilServiceState, h0, hd0]
    norm_num
    rw [pollLoop_timeout c ticks 1 (fun i h1 h2 => hall i h1 (by omega)),
      Nat.add_comm]
    exact ⟨rfl, rfl⟩
  · intro j e h0 hd0 htr hj1 hj2 hfirst herr
    subst htr
    simp only [WaitUntilServiceState, h0, hd0]
    norm_num
    rw [pollLoop_error c ticks 1 j e hj1 (by omega) hfirst herr]
    exact ⟨rfl, rfl⟩
  · intro e
    exact ⟨fun h => WaitError.noConfusion h, fun h => WaitError.noConfusion h⟩

/-- Witness for C6: a never-done check times out after two ticks and
reports the final check's state; a check failing on poll invocation 2
returns the wrapped check error with that invocation's state. -/
theorem waitUntilServiceState_timeout_behaviour_witness :
    WaitUntilServiceState (.ok ()) pendingCheck 2 =
      ⟨"Stop Pending", some .timedout, 1⟩ ∧
    WaitUntilServiceState (.ok ()) midErrCheck 5 =
      ⟨"Paused", some (.wrappedCheckError "probe failed"), 1⟩ := by
  constructor
  · exact (waitUntilServiceState_timeout_behaviour (.ok ()) pendingCheck 2).1
      rfl rfl rfl (fun i _ _ => ⟨rfl, rfl⟩)
  · refine (waitUntilServiceState_timeout_behaviour (.ok ()) midErrCheck 5).2.1
      2 "probe failed" rfl rfl rfl (by omega) (by omega) ?_ rfl
    intro i h1 h2
    have hi : i = 1 := by omega
    subst hi
    exact ⟨rfl, rfl⟩

/-- The creation pass produces one listener slot per endpoint (filled on
success, `nil` on failure) and one error per failing endpoint, in
order. -/
theorem createListenersAux_eq (listen : Nat → Except String Unit) :
    ∀ l : List Nat,
      createListenersAux listen l =
        (l.map (fun i => match listen i with
          | .ok _ => some i
          | .error _ => none),
         l.filterMap (fun i => match listen i with
          | .ok _ => none
          | .error e => some e)) := by
  intro l
  induction l with
  | nil => rfl
  | cons i rest ih =>
    simp only [createListenersAux, ih, List.map_cons, List.filterMap_cons]
    cases h : listen i with
    | ok _ => simp [h]
    | error e => simp [h]

/-- C7: if any endpoint's listener creation fails during start, no serve
loop is launched, the error list contains one creation error per failing
endpoint (in particular it is non-empty), and every listener successfully
created is closed by the cleanup. -/
theorem startListening_failure_atomic :
    ∀ (n : Nat) (listen : Nat → Except String Unit),
      (∃ i, i < n ∧ ∃ e, listen i = .error e) →
      (startListening (NewServer n) listen).serveLoops = [] ∧
      (startListening (NewServer n) listen).errors =
        (List.range n).filterMap (fun i => match listen i with
          | .ok _ => none
          | .error e => some e) ∧
      (startListening (NewServer n) listen).errors ≠ [] ∧
      (startListening (NewServer n) listen).closedListeners =
        (List.range n).filterMap (fun i => match listen i with
          | .ok _ => some i
          | .error _ => none) := by
  intro n listen hfail
  obtain ⟨i, hin, e, hie⟩ := hfail
  have herr : e ∈ (List.range n).filterMap (fun i => match listen i with
      | .ok _ => none
      | .error e => some e) :=
    List.mem_filterMap.mpr ⟨i, List.mem_range.mpr hin, by rw [hie]⟩
  have hne : (List.range n).filterMap (fun i => match listen i with
      | .ok _ => none
      | .error e => some e) ≠ [] := List.ne_nil_of_mem herr
  have hclosed :
      ((List.range n).map (fun i => match listen i with
        | .ok _ => some i
        | .error _ => none)).filterMap id =
      (List.range n).filterMap (fun i => match listen i with
        | .ok _ => some i
        | .error _ => none) := by
    rw [List.filterMap_map]
    rfl
  have hemp : ((List.range n).filterMap (fun i => match listen i with
      | .ok _ => none
      | .error e => some e)).isEmpty = false := by
    cases hl : (List.range n).filterMap (fun i => match listen i with
      | .ok _ => none
      | .error e => some e) with
    | nil => exact absurd hl hne
    | cons x xs => rfl
  have hcl : createListeners listen n =
      ((List.range n).map (fun i => match listen i with
        | .ok _ => some i
        | .error _ => none),
       (List.range n).filterMap (fun i => match listen i with
        | .ok _ => none
        | .error e => some e),
       (List.range n).filterMap (fun i => match listen i with
        | .ok _ => some i
        | .error _ => none)) := by
    simp only [createListeners, createListenersAux_eq]
    rw [if_neg (by simp [hemp]), hclosed]
  simp only [startListening, NewServer, hcl]
  simp only [hemp, Bool.false_eq_true, if_false]
  exact ⟨trivial, trivial, hne, trivial⟩

/-- Witness for C7: two endpoints, endpoint 0 fails to bind, endpoint 1
succeeds — no serve loop starts, the single bind error is returned, and
the successfully created listener 1 is closed. -/
theorem startListening_failure_atomic_witness :
    (startListening (NewServer 2) listenFail0).serveLoops = [] ∧
    (startListening (NewServer 2) listenFail0).errors = ["bind failed"] ∧
    (startListening (NewServer 2) listenFail0).errors ≠ [] ∧
    (startListening (NewServer 2) listenFail0).closedListeners = [1] := by
  have h := startListening_failure_atomic 2 listenFail0 ⟨0, by omega, "bind failed", rfl⟩
  exact ⟨h.1, h.2.1, h.2.2.1, h.2.2.2⟩

/-- C8: the server lifecycle admits `started` only from not-started: a
fresh server is not started, starting an already-started server fails
with the already-started error and leaves the server (hence the first
call's endpoints) untouched, stopping a never-started server fails with
the not-started error, and any start attempt on a fresh server marks it
started. -/
theorem server_lifecycle_guards :
    ∀ (s : Server) (listen listen2 : Nat → Except String Unit) (n : Nat),
      (NewServer n).started = false ∧
      (s.started = true →
        startListening s listen = ⟨s, ["server already started"], [], []⟩) ∧
      (s.started = false →
        Stop s = (s, some "server not started yet", [])) ∧
      (startListening (NewServer n) listen2).server.started = true := by
  intro s listen listen2 n
  refine ⟨rfl, ?_, ?_, ?_⟩
  · intro h
    simp [startListening, h]
  · intro h
    simp [Stop, h]
  · simp only [startListening, NewServer]
    norm_num
    split
    · rfl
    · rfl

/-- Witness for C8: a concrete already-started server refuses a second
start unchanged; a fresh server refuses `Stop`; a fresh server is marked
started by `startListening`. -/
theorem server_lifecycle_guards_witness :
    startListening ⟨1, true, []⟩ listenOk =
      ⟨⟨1, true, []⟩, ["server already started"], [], []⟩ ∧
    Stop (NewServer 1) = (NewServer 1, some "server not started yet", []) ∧
    (startListening (NewServer 1) listenOk).server.started = true := by
  refine ⟨?_, ?_, ?_⟩
  · exact (server_lifecycle_guards ⟨1, true, []⟩ listenOk listenOk 1).2.1 rfl
  · exact (server_lifecycle_guards (NewServer 1) listenOk listenOk 1).2.2.1 rfl
  · exact (server_lifecycle_guards (NewServer 1) listenOk listenOk 1).2.2.2

/-- With a total reference indexer, key extraction succeeds and the
collected list holds exactly the keys of the reference records. -/
theorem extractKeys_total {β : Type} (idx : β → Except String String) :
    ∀ l : List β, (∀ r ∈ l, ∃ k, idx r = .ok k) →
      ∃ ks, extractKeys idx l = .ok ks ∧
        ∀ tk, tk ∈ ks ↔ ∃ r ∈ l, idx r = .ok tk := by
  intro l
  induction l with
  | nil => intro _; exact ⟨[], rfl, by simp⟩
  | cons r rest ih =>
    intro h
    obtain ⟨k, hk⟩ := h r (List.mem_cons_self r rest)
    obtain ⟨ks, hks, hmem⟩ := ih (fun x hx => h x (List.mem_cons_of_mem r hx))
    refine ⟨k :: ks, ?_, ?_⟩
    · simp only [extractKeys, hk, hks]
    · intro tk
      simp only [List.mem_cons, hmem]
      constructor
      · rintro (rfl | ⟨r', hr', hok⟩)
        · exact ⟨r, Or.inl rfl, hk⟩
        · exact ⟨r', Or.inr hr', hok⟩
      · rintro ⟨r', rfl | hr', hok⟩
        · rw [hk] at hok
          exact Or.inl (Except.ok.inj hok).symm
        · exact Or.inr ⟨r', hr', hok⟩

/-- With a total source indexer, the per-record pass of the semi-join
succeeds and a record is kept iff it occurs in the source set and its key
maps through the table into the reference-key set. -/
theorem findSourcesAux_total {α : Type} (idx : α → Except String String)
    (table : String → Option String) (refKeys : List String) :
    ∀ src : List α, (∀ s ∈ src, ∃ k, idx s = .ok k) →
      ∃ l, findSourcesAux idx table refKeys src = .ok l ∧
        ∀ r, r ∈ l ↔ r ∈ src ∧
          ∃ k tk, idx r = .ok k ∧ table k = some tk ∧ tk ∈ refKeys := by
  intro src
  induction src with
  | nil => intro _; exact ⟨[], rfl, by simp⟩
  | cons s rest ih =>
    intro h
    obtain ⟨k, hk⟩ := h s (List.mem_cons_self s rest)
    obtain ⟨tail, htail, hmem⟩ := ih (fun x hx => h x (List.mem_cons_of_mem s hx))
    cases htab : table k with
    | none =>
      refine ⟨tail, ?_, ?_⟩
      · simp only [findSourcesAux, hk, htail, htab]
      · intro r
        rw [hmem r]
        constructor
        · rintro ⟨hr, hx⟩
          exact ⟨List.mem_cons_of_mem s hr, hx⟩
        · rintro ⟨hr, k', tk', hok, htb, hin⟩
          rcases List.mem_cons.mp hr with rfl | hr
          · rw [hk] at hok
            cases Except.ok.inj hok
            rw [htab] at htb
            cases htb
          · exact ⟨hr, k', tk', hok, htb, hin⟩
    | some tk =>
      by_cases hin : tk ∈ refKeys
      · refine ⟨s :: tail, ?_, ?_⟩
        · simp only [findSourcesAux, hk, htail, htab, if_pos hin]
        · intro r
          simp only [List.mem_cons, hmem r]
          constructor
          · rintro (rfl | ⟨hr, hx⟩)
            · exact ⟨Or.inl rfl, k, tk, hk, htab, hin⟩
            · exact ⟨Or.inr hr, hx⟩
          · rintro ⟨rfl | hr, hx⟩
            · exact Or.inl rfl
            · exact Or.inr ⟨hr, hx⟩
      · refine ⟨tail, ?_, ?_⟩
        · simp only [findSourcesAux, hk, htail, htab, if_neg hin]
        · intro r
          rw [hmem r]
          constructor
          · rintro ⟨hr, hx⟩
            exact ⟨List.mem_cons_of_mem s hr, hx⟩
          · rintro ⟨hr, k', tk', hok, htb, hin'⟩
            rcases List.mem_cons.mp hr with rfl | hr
            · rw [hk] at hok
              cases Except.ok.inj hok
              rw [htab] at htb
              cases Option.some.inj htb
              exact absurd hin' hin
            · exact ⟨hr, k', tk', hok, htb, hin'⟩

/-- C3: with total indexers, the correlation succeeds and returns a
sound and complete semi-join — every returned record is a source record
whose key maps through the table to a key of some reference record,
every source record with such a key is returned, and an empty reference
set yields an empty result. -/
theorem findInstancesByMapping_semijoin :
    ∀ {α β : Type} (source : List α) (srcIdx : α → Except String String)
      (refs : List β) (refIdx : β → Except String String)
      (table : String → Option String),
      (∀ s ∈ source, ∃ k, srcIdx s = .ok k) →
      (∀ r ∈ refs, ∃ k, refIdx r = .ok k) →
      ∃ l, FindInstancesByMapping source srcIdx refs refIdx table = .ok l ∧
        (∀ r ∈ l, r ∈ source ∧ ∃ k tk, srcIdx r = .ok k ∧
          table k = some tk ∧ ∃ rf ∈ refs, refIdx rf = .ok tk) ∧
        (∀ r ∈ source, (∃ k tk, srcIdx r = .ok k ∧ table k = some tk ∧
          ∃ rf ∈ refs, refIdx rf = .ok tk) → r ∈ l) ∧
        (refs = [] → l = []) := by
  intro α β source srcIdx refs refIdx table hs hr
  obtain ⟨ks, hks, hksmem⟩ := extractKeys_total refIdx refs hr
  obtain ⟨l, hl, hlmem⟩ := findSourcesAux_total srcIdx table ks source hs
  refine ⟨l, ?_, ?_, ?_, ?_⟩
  · simp only [FindInstancesByMapping, hks, hl]
  · intro r hrl
    obtain ⟨hrs, k, tk, hok, htb, hin⟩ := (hlmem r).mp hrl
    exact ⟨hrs, k, tk, hok, htb, (hksmem tk).mp hin⟩
  · rintro r hrs ⟨k, tk, hok, htb, hrf⟩
    exact (hlmem r).mpr ⟨hrs, k, tk, hok, htb, (hksmem tk).mpr hrf⟩
  · rintro rfl
    cases hlc : l with
    | nil => rfl
    | cons x xs =>
      obtain ⟨_, k, tk, _, _, hin⟩ := (hlmem x).mp (hlc ▸ List.mem_cons_self x xs)
      obtain ⟨rf, hrf, _⟩ := (hksmem tk).mp hin
      exact absurd hrf (List.not_mem_nil rf)

/-- Witness for C3 at a concrete instance: two disk records, one
reference target, a table mapping the first disk's key to the target's
key. -/
theorem findInstancesByMapping_semijoin_witness :
    ∃ l, FindInstancesByMapping ["d1", "d2"] idIndexer ["t1"] idIndexer
        (fun k => if k = "d1" then some "t1" else none) = .ok l ∧
      (∀ r ∈ l, r ∈ ["d1", "d2"] ∧ ∃ k tk, idIndexer r = .ok k ∧
        (fun k => if k = "d1" then some "t1" else none) k = some tk ∧
        ∃ rf ∈ ["t1"], idIndexer rf = .ok tk) ∧
      (∀ r ∈ ["d1", "d2"],
        (∃ k tk, idIndexer r = .ok k ∧
          (fun k => if k = "d1" then some "t1" else none) k = some tk ∧
          ∃ rf ∈ ["t1"], idIndexer rf = .ok tk) → r ∈ l) ∧
      ((["t1"] : List String) = [] → l = []) :=
  findInstancesByMapping_semijoin ["d1", "d2"] idIndexer ["t1"] idIndexer
    (fun k => if k = "d1" then some "t1" else none)
    (fun s _ => ⟨s, rfl⟩) (fun r _ => ⟨r, rfl⟩)

/-- Every element of an inserted Go map is an old element or the
inserted pair. -/
theorem goMapInsert_mem (m : List (String × String)) (k v : String) :
    ∀ p ∈ goMapInsert m k v, p ∈ m ∨ p = (k, v) := by
  intro p hp
  unfold goMapInsert at hp
  split at hp
  · obtain ⟨q, hq, hqe⟩ := List.mem_map.mp hp
    by_cases hqk : q.1 = k
    · right
      rw [if_pos hqk] at hqe
      exact hqe.symm
    · left
      rw [if_neg hqk] at hqe
      exact hqe ▸ hq
  · rcases List.mem_append.mp hp with h | h
    · exact Or.inl h
    · right
      simpa using h

/-- Insertion preserves every key already present in the Go map. -/
theorem goMapInsert_key_preserved (m : List (String × String)) (k v k' : String) :
    (∃ p ∈ m, p.1 = k') → ∃ p ∈ goMapInsert m k v, p.1 = k' := by
  rintro ⟨p, hp, hpk⟩
  unfold goMapInsert
  split
  · refine ⟨if p.1 = k then (k, v) else p, List.mem_map_of_mem _ hp, ?_⟩
    by_cases hq : p.1 = k
    · simp only [if_pos hq]
      exact hq ▸ hpk
    · simp only [if_neg hq]
      exact hpk
  · exact ⟨p, List.mem_append_left _ hp, hpk⟩

/-- The inserted key is present after insertion into the Go map. -/
theorem goMapInsert_key_self (m : List (String × String)) (k v : String) :
    ∃ p ∈ goMapInsert m k v, p.1 = k := by
  unfold goMapInsert
  split
  case isTrue hc =>
    simp only [List.any_eq_true, decide_eq_true_eq] at hc
    obtain ⟨q, hq, hqk⟩ := hc
    refine ⟨(k, v), List.mem_map.mpr ⟨q, hq, ?_⟩, rfl⟩
    show (if q.1 = k then (k, v) else q) = (k, v)
    rw [if_pos hqk]
  case isFalse hc =>
    exact ⟨(k, v), List.mem_append_right _ (List.mem_cons_self _ _), rfl⟩

/-- A Go-map lookup succeeds exactly when the key is present. -/
theorem goMapLookup_isSome (m : List (String × String)) (k : String) :
    (∃ v, goMapLookup m k = some v) ↔ ∃ p ∈ m, p.1 = k := by
  unfold goMapLookup
  constructor
  · rintro ⟨v, hv⟩
    cases hf : m.find? (fun p => p.1 = k) with
    | none =>
      rw [hf] at hv
      cases hv
    | some p =>
      have hm := List.mem_of_find?_eq_some hf
      have hp := List.find?_some hf
      simp only [decide_eq_true_eq] at hp
      exact ⟨p, hm, hp⟩
  · rintro ⟨p, hp, hpk⟩
    have hsome : (m.find? (fun p => p.1 = k)).isSome = true := by
      rw [List.find?_isSome]
      exact ⟨p, hp, by simp [hpk]⟩
    obtain ⟨q, hq⟩ := Option.isSome_iff_exists.mp hsome
    exact ⟨q.2, by rw [hq]; rfl⟩

/-- Running the mapping build over a row list, starting from any table:
the build succeeds (given total indexers), every resulting entry is an
initial entry or comes from a row, initial keys are preserved, and every
row's source key ends up present. -/
theorem listWMIInstanceMappingsAux_char {γ : Type}
    (srcIdx tgtIdx : γ → Except String String) :
    ∀ (rows : List γ) (table : List (String × String)),
      (∀ row ∈ rows, ∃ k v, srcIdx row = .ok k ∧ tgtIdx row = .ok v) →
      ∃ t, ListWMIInstanceMappingsAux srcIdx tgtIdx table rows = .ok t ∧
        (∀ p ∈ t, p ∈ table ∨
          ∃ row ∈ rows, srcIdx row = .ok p.1 ∧ tgtIdx row = .ok p.2) ∧
        (∀ k, (∃ p ∈ table, p.1 = k) → ∃ p ∈ t, p.1 = k) ∧
        (∀ row ∈ rows, ∀ k, srcIdx row = .ok k → ∃ p ∈ t, p.1 = k) := by
  intro rows
  induction rows with
  | nil =>
    intro table _
    exact ⟨table, rfl, fun p hp => Or.inl hp, fun k h => h, by simp⟩
  | cons row rest ih =>
    intro table h
    obtain ⟨k, v, hk, hv⟩ := h row (List.mem_cons_self row rest)
    obtain ⟨t, ht, hsound, hpres, hkeys⟩ :=
      ih (goMapInsert table k v) (fun x hx => h x (List.mem_cons_of_mem row hx))
    refine ⟨t, ?_, ?_, ?_, ?_⟩
    · simp only [ListWMIInstanceMappingsAux, hk, hv, ht]
    · intro p hp
      rcases hsound p hp with hin | ⟨row', hrow', h1, h2⟩
      · rcases goMapInsert_mem table k v p hin with hmem | rfl
        · exact Or.inl hmem
        · exact Or.inr ⟨row, List.mem_cons_self row rest, hk, hv⟩
      · exact Or.inr ⟨row', List.mem_cons_of_mem row hrow', h1, h2⟩
    · intro k' hk'
      exact hpres k' (goMapInsert_key_preserved table k v k' hk')
    · intro row' hrow' k' hok
      rcases List.mem_cons.mp hrow' with rfl | hrow'
      · rw [hk] at hok
        cases Except.ok.inj hok
        exact hpres k (goMapInsert_key_self table k v)
      · exact hkeys row' hrow' k' hok

/-- C9 counterexample: two association rows sharing the source key `k`
(with target keys `a` and `b`) produce a table with a single pair — the
first row's pair is overwritten, so the table does not hold one pair per
association row and a lookup of `k` cannot yield one target per row. -/
theorem listWMIInstanceMappings_overwrite :
    ListWMIInstanceMappings [("k", "a"), ("k", "b")] fstIndexer sndIndexer =
      .ok [("k", "b")] ∧
    ("k", "a") ∉ [("k", "b")] ∧
    goMapLookup [("k", "b")] "k" = some "b" := ⟨rfl, by decide, rfl⟩

/-- C9 (amended): building the mapping table enumerates every record of
the association collection once, each row triggering exactly one
insertion into a single-valued `map[string]string`; every table entry
originates from some association row, every row's source key is present
in the table, and a lookup therefore yields at most one target-side key
(when several rows share a source key, the later row's pair overwrites
the earlier ones). -/
theorem listWMIInstanceMappings_char :
    ∀ {γ : Type} (rows : List γ) (srcIdx tgtIdx : γ → Except String String),
      (∀ row ∈ rows, ∃ k v, srcIdx row = .ok k ∧ tgtIdx row = .ok v) →
      ∃ t, ListWMIInstanceMappings rows srcIdx tgtIdx = .ok t ∧
        (∀ p ∈ t, ∃ row ∈ rows,
          srcIdx row = .ok p.1 ∧ tgtIdx row = .ok p.2) ∧
        (∀ row ∈ rows, ∀ k, srcIdx row = .ok k →
          ∃ v, goMapLookup t k = some v) := by
  intro γ rows srcIdx tgtIdx h
  obtain ⟨t, ht, hsound, _hpres, hkeys⟩ :=
    listWMIInstanceMappingsAux_char srcIdx tgtIdx rows [] h
  refine ⟨t, ht, ?_, ?_⟩
  · intro p hp
    rcases hsound p hp with hin | hx
    · exact absurd hin (List.not_mem_nil p)
    · exact hx
  · intro row hrow k hok
    exact (goMapLookup_isSome t k).mpr (hkeys row hrow k hok)

/-- Witness for the amended C9 at a concrete instance: two rows with
distinct source keys. -/
theorem listWMIInstanceMappings_char_witness :
    ∃ t, ListWMIInstanceMappings [("x", "1"), ("y", "2")] fstIndexer sndIndexer =
        .ok t ∧
      (∀ p ∈ t, ∃ row ∈ [("x", "1"), ("y", "2")],
        fstIndexer row = .ok p.1 ∧ sndIndexer row = .ok p.2) ∧
      (∀ row ∈ [("x", "1"), ("y", "2")], ∀ k, fstIndexer row = .ok k →
        ∃ v, goMapLookup t k = some v) :=
  listWMIInstanceMappings_char [("x", "1"), ("y", "2")] fstIndexer sndIndexer
    (fun row _ => ⟨row.1, row.2, rfl, rfl⟩)

